import Mathlib

set_option maxRecDepth 40000

/-!
Shallow embedding of the gunzip decoder in `src/gunzip.py` (with the
back-reference copy also present in `src/dump.py`).

Modelling conventions:
* A Python generator of bits is modelled as a `List Bool`; every consumer
  takes the stream as input and returns the unread remainder, so the shared
  mutable generator becomes explicit state passing.
* Machine integers are `Nat` (Python ints are unbounded, so no wrap-around
  is needed anywhere).
* A Python `dict` keyed by `(length, code)` is modelled as the association
  list of its insertion-ordered entries (`HufTable`); the keys written by
  `construct_huffman` are pairwise distinct, so `List.lookup` (first match)
  agrees with the dict lookup.
* An uncaught Python exception (IndexError, TypeError, ZeroDivisionError,
  the RuntimeError produced when `next` exhausts the bit generator inside
  `take`, or the ValueError of `max` on an empty dict) is modelled as
  `none` / `Except.error .pyError`.  The `sys.exit` calls of the
  `__main__` block get their own error constructors.
-/

/-- One bit of the Python bit generator, as `0`/`1`. -/
def bitVal (b : Bool) : Nat := if b then 1 else 0

/-- `bitstream` (gunzip.py line 56): the bits of one byte, least significant
bit first: `(byte >> shiftval) & 0x1` for `shiftval` in `range(8)`. -/
def byteBits (byte : Nat) : List Bool :=
  (List.range 8).map (fun shiftval => ((byte >>> shiftval) &&& 1) == 1)

/-- `bitstream(buffer)` (gunzip.py lines 56-59): all bytes, each emitted
least-significant bit first. -/
def bitstream (buffer : List Nat) : List Bool :=
  (buffer.map byteBits).flatten

/-- `to_number(stream, count)` (gunzip.py lines 61-65): assemble `count` bits
least-significant-bit first.  `none` models the RuntimeError raised when the
generator is exhausted inside `take` before `count` bits were produced. -/
def to_number : List Bool → Nat → Option (Nat × List Bool)
  | s, 0 => some (0, s)
  | [], _ + 1 => none
  | b :: rest, c + 1 =>
    match to_number rest c with
    | none => none
    | some (n, r) => some (2 * n + bitVal b, r)

/-- A Huffman decode table: the insertion-ordered entries of the Python dict
mapping `(bit-length, code-value)` to a symbol. -/
abbrev HufTable := List ((Nat × Nat) × Nat)

/-- `decode_huf` inner loop (gunzip.py lines 127-131): extend the running
MSB-first prefix (`generate_prefixes`, lines 67-71) one bit at a time,
tracking the bit count (`enumerate(..., start=1)`), and return on the first
`(count, number)` key present in the table.  When the stream runs out before
any match, the Python function returns `None` having consumed every bit:
modelled as `(none, [])`. -/
def decode_huf_aux (tbl : HufTable) : List Bool → Nat → Nat → Option Nat × List Bool
  | [], _, _ => (none, [])
  | b :: rest, count, number =>
    let number2 := 2 * number + bitVal b
    match List.lookup (count + 1, number2) tbl with
    | some sym => (some sym, rest)
    | none => decode_huf_aux tbl rest (count + 1) number2

/-- `decode_huf(stream, hufman_code)` (gunzip.py lines 127-131). -/
def decode_huf (stream : List Bool) (tbl : HufTable) : Option Nat × List Bool :=
  decode_huf_aux tbl stream 0 0

/-- The `char_by_code_len` dict of `construct_huffman` (gunzip.py lines
76-80) restricted to its raw material: the `(character, length)` pairs of
`zip(alphabet, code_lengths)` whose length is nonzero (a zero length is
falsy and skipped). -/
def nonzeroPairs (alphabet code_lengths : List Nat) : List (Nat × Nat) :=
  (alphabet.zip code_lengths).filter (fun p => p.2 != 0)

/-- The list `char_by_code_len[l]`: characters of code length `l`, in
alphabet order (the append order of `setdefault(...).append`). -/
def charsByLen (nz : List (Nat × Nat)) (l : Nat) : List Nat :=
  (nz.filter (fun p => p.2 == l)).map Prod.fst

/-- Insert into a sorted list: used to model Python `sorted`. -/
def insertSorted (x : Nat) : List Nat → List Nat
  | [] => [x]
  | y :: ys => if x ≤ y then x :: y :: ys else y :: insertSorted x ys

/-- Python `sorted` on a list of ints (ascending). -/
def sortNat (l : List Nat) : List Nat := l.foldr insertSorted []

/-- The main loop of `construct_huffman` (gunzip.py lines 83-97): for each
`length in range(max_bitwidth)`, if some characters have that code length,
assign them codes `min_code + i` in sorted order and advance `min_code` by
their number; in every iteration `min_code` is then left-shifted once. -/
def constructFold (nz : List (Nat × Nat)) (max_bitwidth : Nat) : HufTable :=
  ((List.range max_bitwidth).foldl
    (fun (acc : Nat × HufTable) length =>
      let min_code := acc.1
      let table := acc.2
      let chars := charsByLen nz length
      if chars.isEmpty then (min_code <<< 1, table)
      else
        ((min_code + chars.length) <<< 1,
         table ++ ((sortNat chars).enum.map
           (fun p => ((length, min_code + p.1), p.2)))))
    (0, [])).2

/-- `construct_huffman(alphabet, code_lengths)` (gunzip.py lines 73-99).
`max_bitwidth` is `max(char_by_code_len) + 1`; when every code length is
zero the dict is empty and Python `max` raises ValueError, modelled as
`none`. -/
def construct_huffman (alphabet code_lengths : List Nat) : Option HufTable :=
  if (nonzeroPairs alphabet code_lengths).isEmpty then none
  else some (constructFold (nonzeroPairs alphabet code_lengths)
    (((nonzeroPairs alphabet code_lengths).map Prod.snd).foldr Nat.max 0 + 1))

/-- `rle_alphabet` (gunzip.py line 6). -/
def rle_alphabet : List Nat := [16, 17, 18, 0, 8, 7, 9, 6, 10, 5, 11, 4, 12, 3, 13, 2, 14, 1, 15]

/-- `length_extra_bits` (gunzip.py line 8). -/
def length_extra_bits : List Nat :=
  [0, 0, 0, 0, 0, 0, 0, 0, 1, 1, 1, 1, 2, 2] ++
    [2, 2, 3, 3, 3, 3, 4, 4, 4, 4, 5, 5, 5, 5, 0]

/-- `distance_extra_bits` (gunzip.py line 9). -/
def distance_extra_bits : List Nat :=
  [0, 0, 0, 0, 1, 1, 2, 2, 3, 3, 4, 4, 5, 5, 6] ++
    [6, 7, 7, 8, 8, 9, 9, 10, 10, 11, 11, 12, 12, 13, 13]

/-- `length_offset` (gunzip.py line 11). -/
def length_offset : List Nat :=
  [3, 4, 5, 6, 7, 8, 9, 10, 11, 13, 15, 17, 19, 23] ++
    [27, 31, 35, 43, 51, 59, 67, 83, 99, 115, 131, 163, 195, 227, 258]

/-- `distance_offset` (gunzip.py line 12). -/
def distance_offset : List Nat :=
  [1, 2, 3, 4, 5, 7, 9, 13, 17, 25, 33, 49, 65, 97, 129] ++
    [193, 257, 385, 513, 769, 1025, 1537, 2049, 3073, 4097, 6145, 8193, 12289, 16385, 24577]

/-- `fixed_huf_codelengths = 144*[8] + 112*[9] + 24*[7] + 8*[8]`
(gunzip.py line 14). -/
def fixed_huf_codelengths : List Nat :=
  (List.replicate 144 8 ++ List.replicate 112 9) ++
    (List.replicate 24 7 ++ List.replicate 8 8)

/-- `fixed_litlen_alphabet = range(288)` (gunzip.py line 15). -/
def fixed_litlen_alphabet : List Nat := List.range 288

/-- The hand-written fixed distance table of the `__main__` block
(gunzip.py line 252): `{ (5, dist_code): dist_code for dist_code in range(32) }`. -/
def fixed_dist_huf_code : HufTable :=
  (List.range 32).map (fun dist_code => ((5, dist_code), dist_code))

/-- Block type constants (gunzip.py lines 17-20). -/
def NO_COMPRESSION : Nat := 0

/-- Block type 1: fixed Huffman tables. -/
def FIXED : Nat := 1

/-- Block type 2: dynamic Huffman tables. -/
def DYNAMIC : Nat := 2

/-- Gzip flag bits (gunzip.py lines 22-26). -/
def FTEXT : Nat := 1

/-- Flag bit: header CRC present. -/
def FHCRC : Nat := 2

/-- Flag bit: extra field present. -/
def FEXTRA : Nat := 4

/-- Flag bit: file name present. -/
def FNAME : Nat := 8

/-- Flag bit: comment present. -/
def FCOMMENT : Nat := 16

/-- One iteration of the `while` body of `decode_codelengths` (gunzip.py
lines 109-124): decode one meta-alphabet symbol, expand its run-length
meaning, and append the resulting `codes` to `codelengths`.  An entry is an
`Option Nat` because the Python list can receive the `None` that
`decode_huf` returns on an exhausted stream (the default branch
`codes = [rle_code]` appends it verbatim; `None` compares unequal to 16, 17
and 18).  `codelengths[-1]` on an empty list is an IndexError, evaluated
before the extra bits are read. -/
def rle_step (tbl : HufTable) (stream : List Bool) (codelengths : List (Option Nat)) :
    Option (List (Option Nat) × List Bool) :=
  match decode_huf stream tbl with
  | (rle_code, s1) =>
    match rle_code with
    | some 16 =>
      match codelengths.getLast? with
      | none => none
      | some prev =>
        match to_number s1 2 with
        | none => none
        | some (n, s2) => some (codelengths ++ List.replicate (n + 3) prev, s2)
    | some 17 =>
      match to_number s1 3 with
      | none => none
      | some (n, s2) => some (codelengths ++ List.replicate (n + 3) (some 0), s2)
    | some 18 =>
      match to_number s1 7 with
      | none => none
      | some (n, s2) => some (codelengths ++ List.replicate (n + 11) (some 0), s2)
    | _ => some (codelengths ++ [rle_code], s1)

/-- The `while len(codelengths) < count` loop of `decode_codelengths`
(gunzip.py lines 108-125), recursing on a fuel bound.  Every iteration of
the Python loop appends at least one entry, so starting the fuel at `count`
(an upper bound on the number of iterations) makes the `0`-fuel branch
inside the guard unreachable from `decode_codelengths`. -/
def decode_codelengths_go (tbl : HufTable) (count : Nat) :
    Nat → List Bool → List (Option Nat) → Option (List (Option Nat) × List Bool)
  | 0, stream, codelengths =>
    if codelengths.length < count then none else some (codelengths, stream)
  | fuel + 1, stream, codelengths =>
    if codelengths.length < count then
      match rle_step tbl stream codelengths with
      | none => none
      | some (codelengths2, s2) => decode_codelengths_go tbl count fuel s2 codelengths2
    else some (codelengths, stream)

/-- `decode_codelengths(stream, huf_code, count)` (gunzip.py lines 107-125). -/
def decode_codelengths (stream : List Bool) (tbl : HufTable) (count : Nat) :
    Option (List (Option Nat) × List Bool) :=
  decode_codelengths_go tbl count count stream []

/-- The `for i in range(length)` copy loop of `inflate` (gunzip.py lines
155-156): append `data_slice[i % distance]` for each index in turn.  The
slice is frozen before the loop, and reading it modulo `distance` is how
the source realises the self-overlapping back-reference copy. -/
def copy_loop (data_slice : List Nat) (distance : Nat) (buf : List Nat) :
    List Nat → Option (List Nat)
  | [] => some buf
  | i :: rest =>
    match data_slice.get? (i % distance) with
    | none => none
    | some x => copy_loop data_slice distance (buf ++ [x]) rest

/-- The back-reference expansion of `inflate` (gunzip.py lines 154-156):
`data_slice = uncompressed_data[-distance:]` then `length` appends of
`data_slice[i % distance]`.  For `distance ≥ 1` the Python slice is the
last `min(distance, len)` bytes, i.e. `buf.drop (buf.length - distance)`
with truncated subtraction.  For `distance = 0` and `length > 0` Python
evaluates `i % 0` and raises ZeroDivisionError (guarded here explicitly;
the call sites always have `distance ≥ 1` because every `distance_offset`
entry is positive).  `none` models the uncaught exception. -/
def copy_backref (buf : List Nat) (distance length : Nat) : Option (List Nat) :=
  if 0 < length ∧ distance = 0 then none
  else copy_loop (buf.drop (buf.length - distance)) distance buf (List.range length)

/-- The `while (symbol := decode_huf(...)) != 256` loop of `inflate`
(gunzip.py lines 133-160), recursing on a fuel bound.  Each iteration of
the Python loop consumes at least one bit, so starting the fuel at the
stream length makes the `0`-fuel branch reachable only with an empty
stream, where Python `decode_huf` returns `None` and the comparison
`None < 257` raises TypeError: both are the same uncaught-exception
outcome, `none`.  Out-of-range list indexing (`length_extra_bits[symbol -
257]` for symbols 286/287, `distance_extra_bits[dist_symbol]` for distance
symbols 30/31 of the hand-written fixed table, or a `None` distance
symbol) is the same `none`. -/
def inflate_go (litlen_huf_code dist_huf_code : HufTable) :
    Nat → List Bool → List Nat → Option (List Nat × List Bool)
  | 0, _, _ => none
  | fuel + 1, stream, buf =>
    match decode_huf stream litlen_huf_code with
    | (none, _) => none
    | (some symbol, s1) =>
      if symbol == 256 then some (buf, s1)
      else if symbol < 257 then
        inflate_go litlen_huf_code dist_huf_code fuel s1 (buf ++ [symbol])
      else
        match length_extra_bits.get? (symbol - 257) with
        | none => none
        | some leb =>
          match to_number s1 leb with
          | none => none
          | some (lex, s2) =>
            match length_offset.get? (symbol - 257) with
            | none => none
            | some loff =>
              match decode_huf s2 dist_huf_code with
              | (none, _) => none
              | (some dist_symbol, s3) =>
                match distance_extra_bits.get? dist_symbol with
                | none => none
                | some deb =>
                  match to_number s3 deb with
                  | none => none
                  | some (dex, s4) =>
                    match distance_offset.get? dist_symbol with
                    | none => none
                    | some doff =>
                      match copy_backref buf (dex + doff) (lex + loff) with
                      | none => none
                      | some buf2 =>
                        inflate_go litlen_huf_code dist_huf_code fuel s4 buf2

/-- `inflate(stream, litlen_huf_code, dist_huf_code)` (gunzip.py lines
133-160): start from an empty `bytearray` and loop until the end-of-block
symbol 256.  Returns the decoded bytes and the unread remainder of the
stream. -/
def inflate (stream : List Bool) (litlen_huf_code dist_huf_code : HufTable) :
    Option (List Nat × List Bool) :=
  inflate_go litlen_huf_code dist_huf_code stream.length stream []

/-- The `while (byte := to_number(stream, 8))` loop of `decode_cstring`
(gunzip.py lines 101-105), on a fuel bound.  Each iteration consumes eight
bits, so fuel `stream.length` suffices; at fuel `0` the stream is empty and
Python would raise inside `to_number`, hence `none`. -/
def decode_cstring_go : Nat → List Bool → Option (List Nat × List Bool)
  | 0, _ => none
  | fuel + 1, s =>
    match to_number s 8 with
    | none => none
    | some (0, s1) => some ([], s1)
    | some (b, s1) =>
      match decode_cstring_go fuel s1 with
      | none => none
      | some (str, s2) => some (b :: str, s2)

/-- `decode_cstring(stream)` (gunzip.py lines 101-105): bytes until a zero
byte, returned as their character codes. -/
def decode_cstring (s : List Bool) : Option (List Nat × List Bool) :=
  decode_cstring_go s.length s

/-- `DeflateHeader` (gunzip.py lines 28-35). -/
structure DeflateHeader where
  bfinal : Nat
  btype : Nat
  hlit : Nat
  hdist : Nat
  hclen : Nat
deriving DecidableEq

/-- `deflate_header_from_stream(stream)` (gunzip.py lines 163-174): a 1-bit
final flag and a 2-bit type; `hlit`, `hdist`, `hclen` are read only for
dynamic blocks and default to 0 otherwise. -/
def deflate_header_from_stream (s : List Bool) : Option (DeflateHeader × List Bool) :=
  match to_number s 1 with
  | none => none
  | some (bfinal, s1) =>
    match to_number s1 2 with
    | none => none
    | some (btype, s2) =>
      if btype == DYNAMIC then
        match to_number s2 5 with
        | none => none
        | some (hlit, s3) =>
          match to_number s3 5 with
          | none => none
          | some (hdist, s4) =>
            match to_number s4 4 with
            | none => none
            | some (hclen, s5) => some (⟨bfinal, btype, hlit, hdist, hclen⟩, s5)
      else some (⟨bfinal, btype, 0, 0, 0⟩, s2)

/-- `GzipHeader` (gunzip.py lines 37-50), with the dataclass defaults for
the optional fields.  Strings are lists of character codes. -/
structure GzipHeader where
  magic : Nat × Nat
  cm : Nat
  flg : Nat
  mtime : Nat
  xfl : Nat
  os : Nat
  xlen : Nat
  extra_bytes : Nat
  fname : Option (List Nat)
  comment : Option (List Nat)
  crc : Nat
deriving DecidableEq

/-- `gzip_header_from_stream(stream)` (gunzip.py lines 176-199).  Note that
when FEXTRA is set the source reads `xlen` as 16 bits and then reads
`to_number(stream, kwargs['xlen'])`, i.e. `xlen` further BITS, into
`extra_bytes`; and that the FHCRC field is read as 8 bits. -/
def gzip_header_from_stream (s0 : List Bool) : Option (GzipHeader × List Bool) :=
  (to_number s0 8).bind fun (m1, s1) =>
  (to_number s1 8).bind fun (m2, s2) =>
  (to_number s2 8).bind fun (cm, s3) =>
  (to_number s3 8).bind fun (flg, s4) =>
  (to_number s4 32).bind fun (mtime, s5) =>
  (to_number s5 8).bind fun (xfl, s6) =>
  (to_number s6 8).bind fun (os, s7) =>
  (if flg &&& FEXTRA != 0 then
    (to_number s7 16).bind fun (xlen, s8) =>
    (to_number s8 xlen).map fun (extra, s9) => ((xlen, extra), s9)
   else some ((0, 0), s7)).bind fun (xe, s8) =>
  (if flg &&& FNAME != 0 then
    (decode_cstring s8).map fun (nm, s9) => (some nm, s9)
   else some (none, s8)).bind fun (fname, s9) =>
  (if flg &&& FCOMMENT != 0 then
    (decode_cstring s9).map fun (cmt, s10) => (some cmt, s10)
   else some (none, s9)).bind fun (comment, s10) =>
  (if flg &&& FHCRC != 0 then to_number s10 8 else some (0, s10)).map fun (crc, s11) =>
  (⟨(m1, m2), cm, flg, mtime, xfl, os, xe.1, xe.2, fname, comment, crc⟩, s11)

/-- The list comprehension `[to_number(stream, 3) for _ in range(4 + hclen)]`
(gunzip.py line 226), generalised to `count` reads of `width` bits. -/
def read_n_numbers (s : List Bool) (width : Nat) : Nat → Option (List Nat × List Bool)
  | 0 => some ([], s)
  | count + 1 =>
    match to_number s width with
    | none => none
    | some (v, s1) =>
      match read_n_numbers s1 width count with
      | none => none
      | some (vs, s2) => some (v :: vs, s2)

/-- Outcome of the `__main__` block type dispatch (gunzip.py lines 223-259).
`pyError` is any uncaught Python exception; the other two constructors are
the two `sys.exit` calls. -/
inductive MainError where
  | pyError
  | storedNotImplemented
  | invalidBlockType
deriving DecidableEq

/-- The per-member decoding of the `__main__` block (gunzip.py lines
219-259), starting after the gzip header: read ONE deflate block header and
dispatch on its type.  There is no loop over blocks and `bfinal` is never
consulted.  In the dynamic path the decoded code-length entries (which are
`Option Nat` because `decode_huf` can return `None`) are fed to
`construct_huffman`; a `None` length is falsy in Python exactly like a `0`
length, so entries are mapped with `Option.getD 0` there. -/
def gunzip_block (stream : List Bool) : Except MainError (List Nat) :=
  match deflate_header_from_stream stream with
  | none => .error .pyError
  | some (hdr, s1) =>
    if hdr.btype == DYNAMIC then
      match read_n_numbers s1 3 (4 + hdr.hclen) with
      | none => .error .pyError
      | some (rle_codelengths, s2) =>
        match construct_huffman rle_alphabet rle_codelengths with
        | none => .error .pyError
        | some huf_code =>
          match decode_codelengths s2 huf_code (hdr.hlit + 257) with
          | none => .error .pyError
          | some (litlen_codelengths, s3) =>
            match decode_codelengths s3 huf_code (hdr.hdist + 1) with
            | none => .error .pyError
            | some (dist_codelengths, s4) =>
              match construct_huffman (List.range (hdr.hlit + 257))
                  (litlen_codelengths.map (fun o => o.getD 0)) with
              | none => .error .pyError
              | some litlen_huf_code =>
                match construct_huffman (List.range (hdr.hdist + 1))
                    (dist_codelengths.map (fun o => o.getD 0)) with
                | none => .error .pyError
                | some dist_huf_code =>
                  match inflate s4 litlen_huf_code dist_huf_code with
                  | none => .error .pyError
                  | some (out, _) => .ok out
    else if hdr.btype == FIXED then
      match construct_huffman fixed_litlen_alphabet fixed_huf_codelengths with
      | none => .error .pyError
      | some litlen_huf_code =>
        match inflate s1 litlen_huf_code fixed_dist_huf_code with
        | none => .error .pyError
        | some (out, _) => .ok out
    else if hdr.btype == NO_COMPRESSION then .error .storedNotImplemented
    else .error .invalidBlockType

/-- The MSB-first running value `decode_huf` has assembled after reading a
list of bits, starting from accumulator `n` (the `number` of
`generate_prefixes`, gunzip.py lines 67-71). -/
def prefixValFrom (n : Nat) (l : List Bool) : Nat :=
  l.foldl (fun m b => 2 * m + bitVal b) n

/-- The MSB-first value of a list of bits, as assembled by
`generate_prefixes` from `number = 0`. -/
def prefixVal (l : List Bool) : Nat := prefixValFrom 0 l

/-- A DEFLATE payload of two fixed-Huffman blocks.  Block 1: `bfinal = 0`,
`btype = 1`, the literal 97 (fixed code `(8, 145)`, bits 10010001) and the
end-of-block symbol 256 (fixed code `(7, 0)`).  Block 2: `bfinal = 1`,
`btype = 1`, the literal 98 (fixed code `(8, 146)`) and end-of-block.
A conforming decoder yields `[97, 98]`. -/
def c1_two_block_input : List Bool :=
  [false, true, false,
   true, false, false, true, false, false, false, true,
   false, false, false, false, false, false, false,
   true, true, false,
   true, false, false, true, false, false, true, false,
   false, false, false, false, false, false, false]

/-- The bytes of a DEFLATE stream holding a single final stored block:
first byte packs `bfinal = 1`, `btype = 00` and five padding bits to the
byte boundary, then `LEN = 1`, `NLEN = ~1` and the payload byte `0x61`.
A conforming decoder yields `[0x61]`. -/
def c2_stored_input : List Nat := [0x01, 0x01, 0x00, 0xFE, 0xFF, 0x61]

/-- A 16-byte gzip fragment: the ten fixed header bytes with
`FLG = FEXTRA`, then `XLEN = 2` little-endian, two extra-field bytes
`0xAA 0xBB`, and two further payload bytes.  Correct gzip semantics put
the cursor after byte 14 (16 remaining bits) once the header is parsed. -/
def c9_input : List Nat :=
  [31, 139, 8, 4, 0, 0, 0, 0, 0, 3, 2, 0, 170, 187, 97, 98]

/-! ### Claim theorems -/

/-- C1: the claim says a two-block payload (non-final then final) decodes to
the concatenation of both block payloads, the decoder looping back to the
next block header after each non-final block.  The code reads exactly one
block header and inflates exactly one block: on the concrete two-fixed-block
payload (literal 97, then literal 98 in the second block) it returns only
`[97]`, never `[97, 98]`, and the `bfinal = 0` flag is never consulted. -/
theorem c1_only_first_block_decoded :
    gunzip_block c1_two_block_input = Except.ok [97] ∧
    gunzip_block c1_two_block_input ≠ Except.ok [97, 98] := by
  constructor
  · rfl
  · intro h
    rw [show gunzip_block c1_two_block_input = Except.ok [97] from rfl] at h
    simp at h

/-- C2: the claim says a single final stored block containing bytes `b`
decodes to exactly `b`.  The code instead hits
`sys.exit("Error: btype = 0 not implemented yet")` for every block of type
0: on a well-formed stored block holding the byte `0x61` it exits instead
of returning `[0x61]`. -/
theorem c2_stored_not_implemented :
    gunzip_block (bitstream c2_stored_input) = Except.error MainError.storedNotImplemented := by
  rfl

/-- C8: the fixed literal/length code-length array assigns 8 bits to
symbols 0-143, 9 bits to 144-255, 7 bits to 256-279 and 8 bits to 280-287,
and the fixed distance table has exactly 32 entries, every one keyed with
bit-length 5 and mapping the 5-bit code `d` to distance symbol `d < 32`. -/
theorem c8_fixed_table_lengths :
    fixed_huf_codelengths =
      (List.range 288).map
        (fun i => if i < 144 then 8 else if i < 256 then 9 else if i < 280 then 7 else 8) ∧
    fixed_dist_huf_code.length = 32 ∧
    fixed_dist_huf_code.all
      (fun e => e.1.1 == 5 && e.1.2 == e.2 && decide (e.2 < 32)) = true := by
  refine ⟨by decide, by decide, by decide⟩

/-- C9: the claim (and the gzip format) require the FEXTRA field to be
skipped as `XLEN` raw BYTES after the 16-bit little-endian `XLEN`.  The
code executes `to_number(stream, kwargs['xlen'])`, consuming `XLEN` BITS:
on a header with `XLEN = 2` followed by 48 bits of payload it consumes
only 2 bits of extra field, leaving 30 unread bits where byte semantics
would leave 16. -/
theorem c9_fextra_consumes_bits :
    (gzip_header_from_stream (bitstream c9_input)).map
      (fun p => (p.1.flg, p.1.xlen, p.2.length)) = some (4, 2, 30) := by
  rfl

/-- C10: the hand-written fixed distance table
`{ (5, d): d for d in range(32) }` coincides with the canonical table that
`construct_huffman` builds from the alphabet `range(32)` with all 32 code
lengths equal to 5. -/
theorem c10_fixed_dist_equals_construct :
    construct_huffman (List.range 32) (List.replicate 32 5) = some fixed_dist_huf_code := by
  rfl

/-- `copy_loop` succeeds when every index, taken modulo the distance, is a
valid index into the frozen slice. -/
theorem copy_loop_total (ds : List Nat) (d : Nat) :
    ∀ (idxs buf : List Nat),
      (∀ i ∈ idxs, i % d < ds.length) → ∃ out, copy_loop ds d buf idxs = some out := by
  intro idxs
  induction idxs with
  | nil => exact fun buf _ => ⟨buf, rfl⟩
  | cons i rest ih =>
    intro buf h
    have hi : i % d < ds.length := h i (List.mem_cons_self i rest)
    obtain ⟨x, hx⟩ : ∃ x, ds.get? (i % d) = some x := by
      cases hds : ds.get? (i % d) with
      | none =>
        have := List.get?_eq_none.mp hds
        omega
      | some x => exact ⟨x, rfl⟩
    simp only [copy_loop, hx]
    exact ih (buf ++ [x]) (fun j hj => h j (List.mem_cons_of_mem i hj))

/-- `copy_loop` raises (returns `none`) as soon as some index, taken modulo
the distance, falls outside the frozen slice. -/
theorem copy_loop_fails (ds : List Nat) (d : Nat) :
    ∀ (idxs buf : List Nat),
      (∃ i ∈ idxs, ds.length ≤ i % d) → copy_loop ds d buf idxs = none := by
  intro idxs
  induction idxs with
  | nil =>
    rintro buf ⟨i, hi, -⟩
    exact absurd hi (List.not_mem_nil i)
  | cons i rest ih =>
    rintro buf ⟨j, hj, hge⟩
    cases hds : ds.get? (i % d) with
    | none => simp only [copy_loop, hds]
    | some x =>
      have hilt : i % d < ds.length := by
        by_contra hc
        rw [List.get?_eq_none.mpr (by omega)] at hds
        cases hds
      simp only [copy_loop, hds]
      apply ih
      rcases List.mem_cons.mp hj with h1 | h1
      · subst h1; omega
      · exact ⟨j, h1, hge⟩

/-- C4 (amended): a back-reference copy with `1 ≤ distance ≤` output length
always succeeds (the claim is right that such distances never error), but a
distance beyond the output length is NOT reported as `InvalidBackReference`:
no such error exists in the code.  The slice `buf[-distance:]` silently
clamps to the whole buffer; whenever the copy length also exceeds the
buffer (in particular for any copy out of an empty buffer) some index
`i % distance` falls outside the clamped slice and the code dies with an
uncaught IndexError, modelled as `none`. -/
theorem c4_backref_distance_check (buf : List Nat) (d L : Nat) :
    (1 ≤ d → d ≤ buf.length → ∃ out, copy_backref buf d L = some out) ∧
    (buf.length < d → buf.length < L → copy_backref buf d L = none) := by
  constructor
  · intro h1 h2
    unfold copy_backref
    rw [if_neg (by rintro ⟨-, h0⟩; omega)]
    apply copy_loop_total
    intro i _
    have hlen : (buf.drop (buf.length - d)).length = d := by
      rw [List.length_drop]; omega
    rw [hlen]
    exact Nat.mod_lt i (by omega)
  · intro h1 h2
    unfold copy_backref
    rw [if_neg (by rintro ⟨-, h0⟩; omega)]
    apply copy_loop_fails
    refine ⟨buf.length, List.mem_range.mpr h2, ?_⟩
    have hdrop : buf.length - d = 0 := by omega
    rw [hdrop, List.drop_zero, Nat.mod_eq_of_lt h1]

theorem c4_backref_distance_check_witness :
    (∃ out, copy_backref [7] 1 2 = some out) ∧ copy_backref [7] 2 2 = none :=
  ⟨(c4_backref_distance_check [7] 1 2).1 (by decide) (by decide),
   (c4_backref_distance_check [7] 2 2).2 (by decide) (by decide)⟩

/-- C4 counterexample: the claim says every back-reference whose distance
exceeds the current output length fails with a REPORTED
`InvalidBackReference` error, never a crash or wrong output.  On the left,
a back-reference (length 3, distance 1) into an empty output buffer makes
`inflate` die with an uncaught IndexError (`none`), not a reported error.
On the right, after the literals 10, 11, 10 a back-reference of length 3
and distance 4 (> 3 bytes produced) is accepted silently: the clamped
slice makes the decoder emit `[10, 11, 10, 10, 11, 10]` with no error at
all. -/
theorem c4_no_invalid_backreference_report :
    inflate [false, false] [((1, 0), 257), ((1, 1), 256)] [((1, 0), 0)] = none ∧
    inflate [false, false, false, true, false, false, true, false, false, true, true]
        [((2, 0), 10), ((2, 1), 11), ((2, 2), 257), ((2, 3), 256)] [((1, 0), 3)] =
      some ([10, 11, 10, 10, 11, 10], []) := ⟨rfl, rfl⟩

/-- `copy_loop` with distance 1 over the one-byte slice `[x]` appends `x`
once per index. -/
theorem copy_loop_single (x : Nat) :
    ∀ (idxs buf : List Nat),
      copy_loop [x] 1 buf idxs = some (buf ++ List.replicate idxs.length x) := by
  intro idxs
  induction idxs with
  | nil => intro buf; simp [copy_loop]
  | cons i rest ih =>
    intro buf
    simp only [copy_loop, Nat.mod_one, List.get?_cons_zero]
    rw [ih (buf ++ [x])]
    simp [List.replicate_succ]

/-- C5: for every output buffer ending in the byte `x`, the back-reference
copy with distance 1 and length `L` appends exactly `L` copies of `x`; in
particular the one-byte buffer `[97]` (ASCII `a`) with distance 1 and
length 5 becomes six copies of 97 (`"aaaaaa"`).  The source realises the
self-overlapping copy by indexing the frozen one-byte slice modulo the
distance while appending one byte at a time, which is observationally the
byte-at-a-time overlapping copy the claim describes. -/
theorem c5_overlapping_copy (ys : List Nat) (x L : Nat) :
    copy_backref (ys ++ [x]) 1 L = some ((ys ++ [x]) ++ List.replicate L x) ∧
    copy_backref [97] 1 5 = some [97, 97, 97, 97, 97, 97] := by
  constructor
  · unfold copy_backref
    rw [if_neg (by rintro ⟨-, h0⟩; omega)]
    have hslice : (ys ++ [x]).drop ((ys ++ [x]).length - 1) = [x] := by
      simp [List.length_append]
    rw [hslice, copy_loop_single x (List.range L) (ys ++ [x]), List.length_range]
  · rfl

/-- Every successful return of the code-length loop carries at least
`count` entries: the only `some` exit is the `len(codelengths) < count`
guard failing. -/
theorem decode_codelengths_go_ge (tbl : HufTable) (count : Nat) :
    ∀ (fuel : Nat) (stream : List Bool) (cls l : List (Option Nat)) (rest : List Bool),
      decode_codelengths_go tbl count fuel stream cls = some (l, rest) → count ≤ l.length := by
  intro fuel
  induction fuel with
  | zero =>
    intro stream cls l rest h
    simp only [decode_codelengths_go] at h
    by_cases hc : cls.length < count
    · rw [if_pos hc] at h; cases h
    · rw [if_neg hc] at h
      simp only [Option.some.injEq, Prod.mk.injEq] at h
      obtain ⟨rfl, rfl⟩ := h
      omega
  | succ fuel ih =>
    intro stream cls l rest h
    simp only [decode_codelengths_go] at h
    by_cases hc : cls.length < count
    · rw [if_pos hc] at h
      cases hrle : rle_step tbl stream cls with
      | none => rw [hrle] at h; cases h
      | some p =>
        obtain ⟨cls2, s2⟩ := p
        rw [hrle] at h
        exact ih s2 cls2 l rest h
    · rw [if_neg hc] at h
      simp only [Option.some.injEq, Prod.mk.injEq] at h
      obtain ⟨rfl, rfl⟩ := h
      omega

/-- C3 (amended): `decode_codelengths` never truncates and never reports a
shortfall.  It always returns at least `count` entries when it returns at
all: a run that overshoots `count` is kept in full (see the counterexample
for a 3-entry result when 1 was requested), and on an exhausted stream the
`None` sentinel of `decode_huf` is itself appended as an entry until the
target is reached, instead of an `InvalidEncoding` failure. -/
theorem c3_returns_at_least_count (stream : List Bool) (tbl : HufTable) (count : Nat)
    (l : List (Option Nat)) (rest : List Bool)
    (h : decode_codelengths stream tbl count = some (l, rest)) : count ≤ l.length :=
  decode_codelengths_go_ge tbl count count stream [] l rest h

theorem c3_returns_at_least_count_witness :
    decode_codelengths [] [] 0 = some ([], []) ∧ 0 ≤ ([] : List (Option Nat)).length :=
  ⟨rfl, c3_returns_at_least_count [] [] 0 [] [] rfl⟩

/-- C3 counterexample: with a table decoding the first 0-bit to the
run-length symbol 17 (a run of `3 + extra` zeros) and a target count of 1,
the decoder returns THREE entries, not one: the overshooting run is not
truncated to the target count. -/
theorem c3_overshoot_counterexample :
    decode_codelengths [false, false, false, false] [((1, 0), 17)] 1 =
      some ([some 0, some 0, some 0], []) ∧
    ¬ (∀ (l : List (Option Nat)) (rest : List Bool),
        decode_codelengths [false, false, false, false] [((1, 0), 17)] 1 = some (l, rest) →
        l.length = 1) :=
  ⟨rfl, fun hall => absurd (hall [some 0, some 0, some 0] [] rfl) (by decide)⟩

/-- If no prefix of the stream ever hits a table key, the `decode_huf` loop
walks off the end of the stream and returns the `None` sentinel. -/
theorem decode_huf_aux_no_match (tbl : HufTable) :
    ∀ (s : List Bool) (c n : Nat),
      (∀ k, k < s.length →
        List.lookup (c + k + 1, prefixValFrom n (s.take (k + 1))) tbl = none) →
      decode_huf_aux tbl s c n = (none, []) := by
  intro s
  induction s with
  | nil => intro c n _; rfl
  | cons b rest ih =>
    intro c n h
    have h0 : List.lookup (c + 1, 2 * n + bitVal b) tbl = none := by
      have hx := h 0 (by simp)
      simpa [prefixValFrom] using hx
    simp only [decode_huf_aux, h0]
    exact ih (c + 1) (2 * n + bitVal b) (fun k hk => by
      have hk2 := h (k + 1) (by simpa using Nat.succ_lt_succ hk)
      have harith : c + (k + 1) + 1 = c + 1 + k + 1 := by omega
      rw [harith] at hk2
      simpa [prefixValFrom] using hk2)

/-- C6 (amended): when the stream is exhausted before any
`(bit-count, prefix-value)` pair matches a table entry, `decode_huf` does
not fail with a named `UnexpectedEndOfStream` error: it consumes the whole
stream and returns the sentinel `None` (the bare `return None` of
gunzip.py line 131), which its callers then compare against integers. -/
theorem c6_exhaustion_returns_sentinel (stream : List Bool) (tbl : HufTable)
    (h : ∀ k, k < stream.length →
        List.lookup (k + 1, prefixVal (stream.take (k + 1))) tbl = none) :
    decode_huf stream tbl = (none, []) :=
  decode_huf_aux_no_match tbl stream 0 0 (fun k hk => by
    have hx := h k hk
    simpa [prefixVal] using hx)

theorem c6_exhaustion_returns_sentinel_witness :
    decode_huf [true] [((1, 0), 9)] = (none, []) :=
  c6_exhaustion_returns_sentinel [true] [((1, 0), 9)] (by decide)

/-- C6 counterexample: on the one-bit stream `[1]` against a table holding
only the key `(1, 0)`, no pair ever matches and the stream exhausts; the
claim says this fails with an `UnexpectedEndOfStream` error, but the code
signals the absence with the sentinel return value `None` — exactly the
magic "not found" value the claim rules out. -/
theorem c6_sentinel_counterexample :
    decode_huf [true] [((1, 0), 5)] = (none, []) := rfl

/-- Pairs zipped against a run of zero code lengths are all filtered away. -/
theorem filter_zip_replicate_zero (l : List Nat) :
    ∀ j : Nat, (l.zip (List.replicate j (0 : Nat))).filter (fun p => p.2 != 0) = [] := by
  induction l with
  | nil => intro j; rfl
  | cons a tl ih =>
    intro j
    cases j with
    | zero => rfl
    | succ j =>
      simp only [List.replicate_succ, List.zip_cons_cons, List.filter]
      simpa using ih j

/-- When exactly one symbol (the `i`-th) has code length 1 and every other
length is 0, the `char_by_code_len` material reduces to that single pair. -/
theorem nonzeroPairs_single :
    ∀ (i : Nat) (alph : List Nat) (j s : Nat), alph.length = i + 1 + j →
      alph.get? i = some s →
      nonzeroPairs alph (List.replicate i 0 ++ 1 :: List.replicate j 0) = [(s, 1)] := by
  intro i
  induction i with
  | zero =>
    intro alph j s hlen hget
    cases alph with
    | nil => cases hget
    | cons a tl =>
      have ha : a = s := by simpa using hget
      subst ha
      simp only [List.replicate, List.nil_append, nonzeroPairs, List.zip_cons_cons,
        List.filter]
      simpa using filter_zip_replicate_zero tl j
  | succ i ih =>
    intro alph j s hlen hget
    cases alph with
    | nil => cases hget
    | cons a tl =>
      have htl : tl.length = i + 1 + j := by
        simp only [List.length_cons] at hlen
        omega
      have hgt : tl.get? i = some s := by simpa using hget
      have := ih tl j s htl hgt
      simp only [List.replicate_succ, List.cons_append, nonzeroPairs,
        List.zip_cons_cons, List.filter] at this ⊢
      simpa using this

/-- C7 (amended): for an alphabet whose code-length array assigns length 1
to exactly one symbol `s` and 0 to all others, `construct_huffman` builds
the one-entry table `{(1, 0): s}`, and `decode_huf` decodes `s` from a
single 0-valued bit.  (A 1-valued bit never matches: see the
counterexample.) -/
theorem c7_single_length_one (alph : List Nat) (i j s : Nat) (rest : List Bool)
    (hlen : alph.length = i + 1 + j) (hget : alph.get? i = some s) :
    construct_huffman alph (List.replicate i 0 ++ 1 :: List.replicate j 0) =
      some [((1, 0), s)] ∧
    decode_huf (false :: rest) [((1, 0), s)] = (some s, rest) := by
  constructor
  · unfold construct_huffman
    rw [nonzeroPairs_single i alph j s hlen hget]
    rfl
  · rfl

theorem c7_single_length_one_witness :
    construct_huffman [3] (List.replicate 0 0 ++ 1 :: List.replicate 0 0) =
      some [((1, 0), 3)] ∧
    decode_huf [false] [((1, 0), 3)] = (some 3, []) :=
  c7_single_length_one [3] 0 0 3 [] (by decide) (by decide)

/-- C7 counterexample: the claim says the single length-1 symbol is decoded
from a single bit WHETHER THAT BIT IS 0 OR 1.  The canonical construction
maps only the key `(1, 0)`: a 0 bit decodes the symbol, but a 1 bit never
matches any prefix, so `decode_huf` consumes the stream and returns the
`None` sentinel instead of the symbol. -/
theorem c7_one_bit_value_counterexample :
    construct_huffman [3] [1] = some [((1, 0), 3)] ∧
    decode_huf [false] [((1, 0), 3)] = (some 3, []) ∧
    decode_huf [true] [((1, 0), 3)] = (none, []) := ⟨rfl, rfl, rfl⟩
